import Mathlib

/-!
# Verification of the rust_chat WebSocket server

Shallow embedding of `src/frame.rs` (the WebSocket frame codec) and
`src/main.rs` (handshake key derivation and the mio event-loop handler),
with theorems checking the design specification's claims against the code.

Bytes are modelled as `Nat` (values < 256 on the wire); byte streams as
`List Nat` consumed from the front, mirroring `std::io::Read` on a cursor.
`u8`/`u16`/`u64` arithmetic is `Nat` with explicit `% 2^w` where the Rust
code truncates (`as u16`, `as u64`).
-/

namespace RustChat

/-- `const FRAME_LEN_U16: u8 = 126` -/
def FRAME_LEN_U16 : Nat := 126

/-- `const FRAME_LEN_U64: u8 = 127` -/
def FRAME_LEN_U64 : Nat := 127

/-- `struct WebSocketFrameHeader` from `frame.rs`. `opcode` and
`payload_length` are `u8` fields. -/
structure WebSocketFrameHeader where
  fin : Bool
  rsv1 : Bool
  rsv2 : Bool
  rsv3 : Bool
  masked : Bool
  opcode : Nat
  payload_length : Nat
deriving Repr, DecidableEq

/-- `WebSocketFrameHeader::determine_len`: the 7-bit length field or a
sentinel.  Note the strict `len < u16::MAX` (65535) comparison for the
16-bit tier, exactly as in the source. -/
def WebSocketFrameHeader.determine_len (len : Nat) : Nat :=
  if len < FRAME_LEN_U16 then len
  else if len < 65535 then FRAME_LEN_U16
  else FRAME_LEN_U64

/-- `WebSocketFrameHeader::new_header(len, opcode)`. -/
def WebSocketFrameHeader.new_header (len : Nat) (opcode : Nat) : WebSocketFrameHeader :=
  { fin := true
    rsv1 := false, rsv2 := false, rsv3 := false
    masked := false
    payload_length := WebSocketFrameHeader.determine_len len
    opcode := opcode }

/-- A 4-byte mask key, `[u8; 4]`. -/
structure MaskKey where
  b0 : Nat
  b1 : Nat
  b2 : Nat
  b3 : Nat
deriving Repr, DecidableEq

/-- `mask[idx % 4]`. -/
def MaskKey.at (m : MaskKey) (idx : Nat) : Nat :=
  match idx % 4 with
  | 0 => m.b0
  | 1 => m.b1
  | 2 => m.b2
  | _ => m.b3

/-- `struct WebSocketFrame` from `frame.rs`. -/
structure WebSocketFrame where
  header : WebSocketFrameHeader
  mask : Option MaskKey
  payload : List Nat
deriving Repr, DecidableEq

/-- The two `From` impls build a frame this way (`From<&[u8]>` with
`OpCode::BinaryFrame as u8 = 2`, `From<&str>` with `OpCode::TextFrame
as u8 = 1`): `new_header(payload.len(), opcode)`, no mask. -/
def mkFrame (payload : List Nat) (opcode : Nat) : WebSocketFrame :=
  { header := WebSocketFrameHeader.new_header payload.length opcode
    mask := none
    payload := payload }

/-- `bool as u8`. -/
def b2n (b : Bool) : Nat := if b then 1 else 0

/-- `WebSocketFrame::serialize_header`: pack the header into a `u16`. -/
def serialize_header (hdr : WebSocketFrameHeader) : Nat :=
  let b1 := (b2n hdr.fin <<< 7) ||| (b2n hdr.rsv1 <<< 6) ||| (b2n hdr.rsv2 <<< 5)
              ||| (b2n hdr.rsv3 <<< 4) ||| (hdr.opcode &&& 0x0F)
  let b2 := (b2n hdr.masked <<< 7) ||| (hdr.payload_length &&& 0x7F)
  (b1 <<< 8) ||| b2

/-- `WebSocketFrame::parse_header`: unpack a `u16` into a header.  The
source performs no opcode validation: the raw low 4 bits of the first
byte are stored, whatever their value. -/
def parse_header (buf : Nat) : WebSocketFrameHeader :=
  { fin := ((buf >>> 8) &&& 0x80) == 0x80
    rsv1 := ((buf >>> 8) &&& 0x40) == 0x40
    rsv2 := ((buf >>> 8) &&& 0x20) == 0x20
    rsv3 := ((buf >>> 8) &&& 0x10) == 0x10
    opcode := ((buf >>> 8) % 256) &&& 0x0F
    masked := (buf &&& 0x80) == 0x80
    payload_length := (buf % 256) &&& 0x7F }

/-- Big-endian bytes of a `u16` (`write_u16::<BigEndian>`). -/
def u16BE (n : Nat) : List Nat := [n / 256 % 256, n % 256]

/-- Big-endian bytes of a `u64` (`write_u64::<BigEndian>`). -/
def u64BE (n : Nat) : List Nat :=
  [n / 2 ^ 56 % 256, n / 2 ^ 48 % 256, n / 2 ^ 40 % 256, n / 2 ^ 32 % 256,
   n / 2 ^ 24 % 256, n / 2 ^ 16 % 256, n / 2 ^ 8 % 256, n % 256]

/-- `WebSocketFrame::write`: header word, then the extended length for
the sentinel tiers (`payload.len() as u16` / `as u64` truncate), then
the raw payload bytes. -/
def WebSocketFrame.write (f : WebSocketFrame) : List Nat :=
  u16BE (serialize_header f.header) ++
    (if f.header.payload_length == FRAME_LEN_U16 then u16BE (f.payload.length % 2 ^ 16)
     else if f.header.payload_length == FRAME_LEN_U64 then u64BE (f.payload.length % 2 ^ 64)
     else []) ++
    f.payload

/-- I/O failure, as raised by `byteorder`'s exact reads on a short
stream (`io::ErrorKind::UnexpectedEof`). -/
inductive IoErr where
  | unexpectedEof
deriving Repr, DecidableEq

/-- `input.read_u16::<BigEndian>()`: consumes exactly 2 bytes or fails. -/
def read_u16 : List Nat → Except IoErr (Nat × List Nat)
  | b0 :: b1 :: rest => .ok (b0 * 256 + b1, rest)
  | _ => .error .unexpectedEof

/-- `input.read_u64::<BigEndian>()`: consumes exactly 8 bytes or fails. -/
def read_u64 : List Nat → Except IoErr (Nat × List Nat)
  | b0 :: b1 :: b2 :: b3 :: b4 :: b5 :: b6 :: b7 :: rest =>
      .ok (((((((b0 * 256 + b1) * 256 + b2) * 256 + b3) * 256 + b4) * 256 + b5) * 256
              + b6) * 256 + b7, rest)
  | _ => .error .unexpectedEof

/-- `WebSocketFrame::read_length`: dispatch on the 7-bit field. -/
def read_length (payload_len : Nat) (input : List Nat) : Except IoErr (Nat × List Nat) :=
  if payload_len == FRAME_LEN_U64 then read_u64 input
  else if payload_len == FRAME_LEN_U16 then read_u16 input
  else .ok (payload_len, input)

/-- `WebSocketFrame::read_mask`: `let mut buf = [0; 4]` then a single
unchecked `input.read(&mut buf)` — fills as many of the 4 bytes as the
stream has, leaves the rest zero, never fails. -/
def read_mask (input : List Nat) : Except IoErr (MaskKey × List Nat) :=
  let buf := input.take 4 ++ List.replicate (4 - (input.take 4).length) 0
  .ok (⟨buf.getD 0 0, buf.getD 1 0, buf.getD 2 0, buf.getD 3 0⟩, input.drop 4)

/-- `WebSocketFrame::read_payload`: a `Vec` of capacity `payload_len`
whose length is forced with `unsafe set_len`, then a single unchecked
`input.read` — it fills only the bytes the stream has; the remainder
of the returned payload is uninitialized memory, modelled by the
`uninit` function.  Never fails. -/
def read_payload (uninit : Nat → Nat) (payload_len : Nat) (input : List Nat) :
    Except IoErr (List Nat × List Nat) :=
  let filled := input.take payload_len
  .ok (filled ++ (List.range (payload_len - filled.length)).map uninit, input.drop payload_len)

/-- `WebSocketFrame::apply_mask` (`iter_mut().enumerate()` loop),
starting at index `i`. -/
def applyMaskFrom (mask : MaskKey) (i : Nat) : List Nat → List Nat
  | [] => []
  | b :: bs => (b ^^^ mask.at i) :: applyMaskFrom mask (i + 1) bs

/-- `WebSocketFrame::apply_mask`: XOR byte `i` with `mask[i % 4]`. -/
def apply_mask (mask : MaskKey) (bytes : List Nat) : List Nat :=
  applyMaskFrom mask 0 bytes

/-- `WebSocketFrame::read`: header word, length, optional mask key,
payload, then unmask once if the mask bit was set. -/
def WebSocketFrame.read (uninit : Nat → Nat) (input : List Nat) :
    Except IoErr (WebSocketFrame × List Nat) := do
  let (buf, input) ← read_u16 input
  let header := parse_header buf
  let (len, input) ← read_length header.payload_length input
  let (mask_key, input) ←
    if header.masked then do
      let (m, input) ← read_mask input
      pure (some m, input)
    else
      pure ((none : Option MaskKey), input)
  let (payload, input) ← read_payload uninit len input
  let payload := match mask_key with
    | some mask => apply_mask mask payload
    | none => payload
  pure ({ header := header, payload := payload, mask := mask_key }, input)

/-! ## Event-loop server model (`src/main.rs`)

The registry `clients: HashMap<Token, WebSocketClient>` is modelled by
its key set, a duplicate-free token list (`insert` of a fresh key conses;
the values play no role in the claims).  Tokens are `Nat`. -/

/-- `const SERVER_TOKEN: Token = Token(0)`. -/
def SERVER_TOKEN : Nat := 0

/-- The server state from `struct WebSocketServer`: registry key set and
token counter. -/
structure WebSocketServer where
  clients : List Nat
  token_counter : Nat
deriving Repr, DecidableEq

/-- The initial state built in `main`: `token_counter: 1`,
`clients: HashMap::new()`. -/
def initialServer : WebSocketServer :=
  { token_counter := 1, clients := [] }

/-- `HashMap::insert` on the key set: a present key is replaced (key set
unchanged), an absent key is added. -/
def insertToken (t : Nat) (l : List Nat) : List Nat :=
  if t ∈ l then l else t :: l

/-- The `SERVER_TOKEN` arm of `ready` on a successful accept:
`token_counter += 1; new_token = Token(token_counter);
clients.insert(new_token, ...)`. -/
def acceptClient (s : WebSocketServer) : WebSocketServer :=
  { token_counter := s.token_counter + 1
    clients := insertToken (s.token_counter + 1) s.clients }

/-- Modelled from the spec: `remove(token)` (§4.4) — "deregisters
interest and drops the connection"; absent from `src/main.rs`, which
never removes registry entries.  The token counter is untouched. -/
def removeClient (s : WebSocketServer) (t : Nat) : WebSocketServer :=
  { s with clients := s.clients.erase t }

/-- A registry operation: a successful accept, or a removal. -/
inductive ServerOp where
  | accept
  | remove (t : Nat)
deriving Repr, DecidableEq

/-- Apply one registry operation. -/
def serverStep (s : WebSocketServer) : ServerOp → WebSocketServer
  | .accept => acceptClient s
  | .remove t => removeClient s t

/-- Run a trace of registry operations from the initial state. -/
def runServer (ops : List ServerOp) : WebSocketServer :=
  ops.foldl serverStep initialServer

/-- `accept` iterated `n` times from the initial state. -/
def acceptN (n : Nat) : WebSocketServer :=
  runServer (List.replicate n .accept)

/-! Observable actions of `WebSocketServer::ready` against the mio
event loop and sockets, in program order. -/

/-- `PollOpt::edge() | PollOpt::oneshot()` etc. -/
structure PollOptions where
  edge : Bool
  oneshot : Bool
deriving Repr, DecidableEq

/-- One observable step of the `ready` handler. -/
inductive ReadyEffect where
  | acceptedConn (token : Nat)
  | clientRead (token : Nat)
  | registerRead (token : Nat) (opts : PollOptions)
deriving Repr, DecidableEq

/-- `Handler::ready` from `main.rs`: the `SERVER_TOKEN` arm accepts,
assigns the fresh token and registers it readable/edge/oneshot; the
client arm looks the token up (`unwrap` panics when absent, modelled
as `none`), runs `client.read()`, then registers the same socket
readable/edge/oneshot.  Returns the new state and the effects in
program order. -/
def ready (s : WebSocketServer) (token : Nat) :
    Option (WebSocketServer × List ReadyEffect) :=
  if token == SERVER_TOKEN then
    let new_token := s.token_counter + 1
    some (acceptClient s,
      [.acceptedConn new_token, .registerRead new_token ⟨true, true⟩])
  else if token ∈ s.clients then
    some (s, [.clientRead token, .registerRead token ⟨true, true⟩])
  else
    none

/-! ## Handshake key derivation (`gen_key` in `src/main.rs`)

`gen_key` drives the external `sha1` and `rustc_serialize` crates; the
crates' algorithms are modelled from the spec (§4.2): a 160-bit SHA-1
digest and standard base64. -/

/-- 32-bit truncation. -/
def m32 (n : Nat) : Nat := n % 2 ^ 32

/-- Left-rotation of a 32-bit word. -/
def rotl (s w : Nat) : Nat :=
  m32 (w * 2 ^ s) ||| (w / 2 ^ (32 - s))

/-- 32-bit bitwise complement. -/
def not32 (w : Nat) : Nat := w ^^^ (2 ^ 32 - 1)

/-- Big-endian bytes of a 32-bit word. -/
def u32BE (n : Nat) : List Nat :=
  [n / 2 ^ 24 % 256, n / 2 ^ 16 % 256, n / 2 ^ 8 % 256, n % 256]

/-- The five 32-bit working registers of SHA-1. -/
structure Sha1Regs where
  a : Nat
  b : Nat
  c : Nat
  d : Nat
  e : Nat
deriving Repr, DecidableEq

/-- Modelled from the spec: SHA-1 padding — append `0x80`, zero-fill to
56 mod 64, append the 64-bit big-endian bit length. -/
def sha1Pad (msg : List Nat) : List Nat :=
  msg ++ 128 :: List.replicate ((119 - msg.length % 64) % 64) 0 ++ u64BE (msg.length * 8)

/-- Big-endian 32-bit words from bytes (whole 4-byte groups). -/
def bytesToWords : List Nat → List Nat
  | b0 :: b1 :: b2 :: b3 :: rest =>
      (((b0 * 256 + b1) * 256 + b2) * 256 + b3) :: bytesToWords rest
  | _ => []

/-- Extend the 16 block words to 80: `w[i] = rotl1 (w[i-3] ^^^ w[i-8]
^^^ w[i-14] ^^^ w[i-16])`.  `acc` holds the words produced so far in
reverse order. -/
def sha1Extend (acc : List Nat) : Nat → List Nat
  | 0 => acc.reverse
  | n + 1 =>
      sha1Extend
        (rotl 1 (acc.getD 2 0 ^^^ acc.getD 7 0 ^^^ acc.getD 13 0 ^^^ acc.getD 15 0) :: acc) n

/-- One SHA-1 round: round-dependent mix function and constant, then
rotate the registers. -/
def sha1Round (i : Nat) (r : Sha1Regs) (w : Nat) : Sha1Regs :=
  let f :=
    if i < 20 then (r.b &&& r.c) ||| (not32 r.b &&& r.d)
    else if i < 40 then r.b ^^^ r.c ^^^ r.d
    else if i < 60 then (r.b &&& r.c) ||| (r.b &&& r.d) ||| (r.c &&& r.d)
    else r.b ^^^ r.c ^^^ r.d
  let k :=
    if i < 20 then 0x5A827999
    else if i < 40 then 0x6ED9EBA1
    else if i < 60 then 0x8F1BBCDC
    else 0xCA62C1D6
  { a := m32 (rotl 5 r.a + f + r.e + k + w)
    b := r.a
    c := rotl 30 r.b
    d := r.c
    e := r.d }

/-- Run the 80 rounds over the extended schedule. -/
def sha1Rounds (i : Nat) (r : Sha1Regs) : List Nat → Sha1Regs
  | [] => r
  | w :: ws => sha1Rounds (i + 1) (sha1Round i r w) ws

/-- Compress one 64-byte block into the chaining state. -/
def sha1Compress (h : Sha1Regs) (block : List Nat) : Sha1Regs :=
  let w := sha1Extend (bytesToWords block).reverse 64
  let r := sha1Rounds 0 h w
  { a := m32 (h.a + r.a), b := m32 (h.b + r.b), c := m32 (h.c + r.c)
    d := m32 (h.d + r.d), e := m32 (h.e + r.e) }

/-- Fold `k` 64-byte blocks of `l` into the chaining state. -/
def sha1Blocks (k : Nat) (h : Sha1Regs) (l : List Nat) : Sha1Regs :=
  match k with
  | 0 => h
  | k + 1 => sha1Blocks k (sha1Compress h (l.take 64)) (l.drop 64)

/-- Modelled from the spec: the 160-bit digest of §4.2, computed by the
external `sha1` crate — pad, compress each block from the standard
initial state, emit the five words big-endian (20 bytes). -/
def sha1Digest (msg : List Nat) : List Nat :=
  let padded := sha1Pad msg
  let h := sha1Blocks (padded.length / 64)
    ⟨0x67452301, 0xEFCDAB89, 0x98BADCFE, 0x10325476, 0xC3D2E1F0⟩ padded
  u32BE h.a ++ u32BE h.b ++ u32BE h.c ++ u32BE h.d ++ u32BE h.e

/-- Modelled from the spec: the standard base64 alphabet used by
`rustc_serialize`'s `STANDARD` config. -/
def b64char (n : Nat) : Char :=
  "ABCDEFGHIJKLMNOPQRSTUVWXYZabcdefghijklmnopqrstuvwxyz0123456789+/".toList.getD n 'A'

/-- Modelled from the spec: standard base64 with `=` padding
(`to_base64(STANDARD)`). -/
def b64encode : List Nat → List Char
  | b0 :: b1 :: b2 :: rest =>
      b64char (b0 / 4) :: b64char (b0 % 4 * 16 + b1 / 16) ::
        b64char (b1 % 16 * 4 + b2 / 64) :: b64char (b2 % 64) :: b64encode rest
  | [b0, b1] =>
      [b64char (b0 / 4), b64char (b0 % 4 * 16 + b1 / 16), b64char (b1 % 16 * 4), '=']
  | [b0] => [b64char (b0 / 4), b64char (b0 % 4 * 16), '=', '=']
  | [] => []

/-- `to_base64(STANDARD)` as a string. -/
def toBase64 (bytes : List Nat) : String :=
  String.mk (b64encode bytes)

/-- UTF-8 bytes of an ASCII string (`as_bytes()`; every string involved
here is ASCII, where UTF-8 bytes and code points coincide). -/
def strBytes (s : String) : List Nat :=
  s.toList.map Char.toNat

/-- The fixed magic GUID from `gen_key`. -/
def magicGUID : String := "258EAFA5-E914-47DA-95CA-C5AB0DC85B11"

/-- The `sha1::Sha1` incremental hasher state: `update` buffers bytes,
`output` produces the digest of everything buffered. -/
structure Sha1 where
  buf : List Nat
deriving Repr, DecidableEq

/-- `sha1::Sha1::new()`. -/
def Sha1.new : Sha1 := ⟨[]⟩

/-- `sha1::Sha1::update`. -/
def Sha1.update (s : Sha1) (bytes : List Nat) : Sha1 := ⟨s.buf ++ bytes⟩

/-- `sha1::Sha1::output`. -/
def Sha1.output (s : Sha1) : List Nat := sha1Digest s.buf

/-- `gen_key` from `main.rs`: hash the key then the GUID, emit the
digest in standard base64. -/
def gen_key (key : String) : String :=
  let m := Sha1.new
  let m := m.update (strBytes key)
  let m := m.update (strBytes magicGUID)
  let buf := m.output
  toBase64 buf

/-! ## Helper lemmas -/

theorem determine_len_lt_128 (len : Nat) : WebSocketFrameHeader.determine_len len < 128 := by
  unfold WebSocketFrameHeader.determine_len FRAME_LEN_U16 FRAME_LEN_U64
  split
  · omega
  · split <;> omega

theorem serialize_mk (op pl : Nat) (hop : op = 1 ∨ op = 2) (hpl : pl < 128) :
    serialize_header ⟨true, false, false, false, false, op, pl⟩ = (128 + op) * 256 + pl := by
  rcases hop with h | h <;> subst h <;> interval_cases pl <;> decide

theorem parse_mk (op pl : Nat) (hop : op = 1 ∨ op = 2) (hpl : pl < 128) :
    parse_header ((128 + op) * 256 + pl) = ⟨true, false, false, false, false, op, pl⟩ := by
  rcases hop with h | h <;> subst h <;> interval_cases pl <;> decide

theorem u16BE_pair (a b : Nat) (ha : a < 256) (hb : b < 256) :
    u16BE (a * 256 + b) = [a, b] := by
  simp only [u16BE, List.cons.injEq, and_true]
  omega

theorem read_u16_u16BE (n : Nat) (rest : List Nat) (h : n < 2 ^ 16) :
    read_u16 (u16BE n ++ rest) = .ok (n, rest) := by
  simp only [u16BE, List.cons_append, List.nil_append, read_u16, Except.ok.injEq,
    Prod.mk.injEq, and_true]
  omega

theorem read_u64_u64BE (n : Nat) (rest : List Nat) (h : n < 2 ^ 64) :
    read_u64 (u64BE n ++ rest) = .ok (n, rest) := by
  simp only [u64BE, List.cons_append, List.nil_append, read_u64, Except.ok.injEq,
    Prod.mk.injEq, and_true]
  omega

theorem read_payload_exact (uninit : Nat → Nat) (payload : List Nat) :
    read_payload uninit payload.length payload = .ok (payload, []) := by
  simp [read_payload]

theorem determine_len_of_lt {len : Nat} (h : len < 126) :
    WebSocketFrameHeader.determine_len len = len := by
  unfold WebSocketFrameHeader.determine_len FRAME_LEN_U16
  rw [if_pos h]

theorem determine_len_mid {len : Nat} (h1 : 126 ≤ len) (h2 : len < 65535) :
    WebSocketFrameHeader.determine_len len = 126 := by
  unfold WebSocketFrameHeader.determine_len FRAME_LEN_U16 FRAME_LEN_U64
  rw [if_neg (by omega), if_pos h2]

theorem determine_len_high {len : Nat} (h : 65535 ≤ len) :
    WebSocketFrameHeader.determine_len len = 127 := by
  unfold WebSocketFrameHeader.determine_len FRAME_LEN_U16 FRAME_LEN_U64
  rw [if_neg (by omega), if_neg (by omega)]

/-- The wire bytes of a `From`-built frame: two header bytes, the
extension bytes of the selected tier, the payload. -/
theorem write_mkFrame (payload : List Nat) (op : Nat) (hop : op = 1 ∨ op = 2) :
    (mkFrame payload op).write
      = (128 + op) :: WebSocketFrameHeader.determine_len payload.length ::
        ((if WebSocketFrameHeader.determine_len payload.length == FRAME_LEN_U16 then
            u16BE (payload.length % 2 ^ 16)
          else if WebSocketFrameHeader.determine_len payload.length == FRAME_LEN_U64 then
            u64BE (payload.length % 2 ^ 64)
          else []) ++ payload) := by
  have hpl128 := determine_len_lt_128 payload.length
  simp only [WebSocketFrame.write, mkFrame, WebSocketFrameHeader.new_header]
  rw [serialize_mk op _ hop hpl128, u16BE_pair (128 + op) _ (by omega) (by omega)]
  simp

/-- Master round-trip lemma: `read ∘ write` is the identity on frames
built by the `From` impls, for any payload that fits in the `u64`
length field. -/
theorem read_write_mkFrame (payload : List Nat) (op : Nat) (uninit : Nat → Nat)
    (hop : op = 1 ∨ op = 2) (hlen : payload.length < 2 ^ 64) :
    WebSocketFrame.read uninit ((mkFrame payload op).write) = .ok (mkFrame payload op, []) := by
  have hpl128 := determine_len_lt_128 payload.length
  rw [write_mkFrame payload op hop]
  by_cases h1 : payload.length < 126
  · rw [determine_len_of_lt h1]
    have e126 : (payload.length == FRAME_LEN_U16) = false := by
      simp [FRAME_LEN_U16]; omega
    have e127 : (payload.length == FRAME_LEN_U64) = false := by
      simp [FRAME_LEN_U64]; omega
    simp only [WebSocketFrame.read, bind, Except.bind, read_u16, e126, e127,
      Bool.false_eq_true, if_false, List.nil_append,
      parse_mk op payload.length hop (by omega), read_length,
      read_payload_exact, pure, Except.pure]
    simp [mkFrame, WebSocketFrameHeader.new_header, determine_len_of_lt h1]
  · by_cases h2 : payload.length < 65535
    · rw [determine_len_mid (by omega) h2]
      have hm : payload.length % 2 ^ 16 = payload.length := Nat.mod_eq_of_lt (by omega)
      simp only [hm, WebSocketFrame.read, bind, Except.bind, read_u16,
        parse_mk op 126 hop (by omega), read_length, beq_self_eq_true, if_true]
      rw [show ((126 : Nat) == FRAME_LEN_U64) = false from rfl,
          show ((126 : Nat) == FRAME_LEN_U16) = true from rfl]
      simp only [Bool.false_eq_true, if_false, if_true, pure, Except.pure]
      simp only [u16BE, List.cons_append, List.nil_append]
      rw [show payload.length / 256 % 256 * 256 + payload.length % 256 = payload.length
            from by omega]
      simp only [read_payload_exact]
      simp [mkFrame, WebSocketFrameHeader.new_header, determine_len_mid (by omega : 126 ≤ payload.length) h2]
    · rw [determine_len_high (by omega)]
      have hm : payload.length % 2 ^ 64 = payload.length := Nat.mod_eq_of_lt hlen
      simp only [hm, WebSocketFrame.read, bind, Except.bind, read_u16,
        parse_mk op 127 hop (by omega), read_length]
      rw [show ((127 : Nat) == FRAME_LEN_U64) = true from rfl,
          show ((127 : Nat) == FRAME_LEN_U16) = false from rfl]
      simp only [Bool.false_eq_true, if_false, if_true,
        read_u64_u64BE payload.length payload hlen, read_payload_exact,
        pure, Except.pure]
      simp [mkFrame, WebSocketFrameHeader.new_header, determine_len_high (by omega : 65535 ≤ payload.length)]

/-! ### Masking lemmas -/

/-- The wire bytes of a mask key. -/
def maskBytes (m : MaskKey) : List Nat := [m.b0, m.b1, m.b2, m.b3]

theorem applyMaskFrom_applyMaskFrom (m : MaskKey) (i : Nat) (l : List Nat) :
    applyMaskFrom m i (applyMaskFrom m i l) = l := by
  induction l generalizing i with
  | nil => rfl
  | cons b bs ih => simp [applyMaskFrom, Nat.xor_cancel_right, ih]

theorem applyMaskFrom_length (m : MaskKey) (i : Nat) (l : List Nat) :
    (applyMaskFrom m i l).length = l.length := by
  induction l generalizing i with
  | nil => rfl
  | cons b bs ih => simp [applyMaskFrom, ih]

theorem apply_mask_length (m : MaskKey) (l : List Nat) :
    (apply_mask m l).length = l.length :=
  applyMaskFrom_length m 0 l

theorem read_mask_exact (m : MaskKey) (rest : List Nat) :
    read_mask (maskBytes m ++ rest) = .ok (m, rest) := rfl

/-! ### Registry lemmas -/

/-- Invariant of the reachable server states: positive counter,
duplicate-free registry, every registered token in `[2, counter]`. -/
def ServerInv (s : WebSocketServer) : Prop :=
  1 ≤ s.token_counter ∧ s.clients.Nodup ∧
    ∀ t ∈ s.clients, 2 ≤ t ∧ t ≤ s.token_counter

theorem serverInv_initial : ServerInv initialServer := by
  refine ⟨by decide, by simp [initialServer], ?_⟩
  intro t ht
  simp [initialServer] at ht

theorem serverInv_accept {s : WebSocketServer} (h : ServerInv s) :
    ServerInv (acceptClient s) ∧
      (acceptClient s).clients.length = s.clients.length + 1 := by
  obtain ⟨hc, hnd, hmem⟩ := h
  have hfresh : s.token_counter + 1 ∉ s.clients := by
    intro hin
    have := (hmem _ hin).2
    omega
  constructor
  · refine ⟨by show 1 ≤ s.token_counter + 1; omega, ?_, ?_⟩
    · simp [acceptClient, insertToken, hfresh, hnd]
    · intro t ht
      simp [acceptClient, insertToken, hfresh] at ht
      rcases ht with h | h
      · simp [acceptClient]; omega
      · have := hmem _ h
        simp [acceptClient]; omega
  · simp [acceptClient, insertToken, hfresh]

theorem serverInv_step {s : WebSocketServer} (h : ServerInv s) (op : ServerOp) :
    ServerInv (serverStep s op) := by
  cases op with
  | accept => exact (serverInv_accept h).1
  | remove t =>
      obtain ⟨hc, hnd, hmem⟩ := h
      refine ⟨by simpa [serverStep, removeClient] using hc, ?_, ?_⟩
      · simpa [serverStep, removeClient] using hnd.erase t
      · intro x hx
        simp only [serverStep, removeClient] at hx
        exact hmem x (List.mem_of_mem_erase hx)

theorem serverInv_foldl (s : WebSocketServer) (h : ServerInv s) (ops : List ServerOp) :
    ServerInv (ops.foldl serverStep s) := by
  induction ops generalizing s with
  | nil => exact h
  | cons op ops ih => exact ih _ (serverInv_step h op)

theorem serverInv_runServer (ops : List ServerOp) : ServerInv (runServer ops) :=
  serverInv_foldl _ serverInv_initial ops

/-- Once a token is absent and bounded by the counter, it stays so:
every later accept assigns the strictly larger `counter + 1`. -/
theorem absent_token_stays_absent {s : WebSocketServer} {t : Nat}
    (h : t ∉ s.clients ∧ t ≤ s.token_counter) (ops : List ServerOp) :
    t ∉ (ops.foldl serverStep s).clients ∧
      t ≤ (ops.foldl serverStep s).token_counter := by
  induction ops generalizing s with
  | nil => exact h
  | cons op ops ih =>
      refine ih ?_
      cases op with
      | accept =>
          refine ⟨?_, by simp [serverStep, acceptClient]; omega⟩
          intro hin
          simp only [serverStep, acceptClient, insertToken] at hin
          split at hin
          · exact h.1 hin
          · rcases List.mem_cons.mp hin with rfl | hin
            · omega
            · exact h.1 hin
      | remove u =>
          refine ⟨?_, by simpa [serverStep, removeClient] using h.2⟩
          intro hin
          simp only [serverStep, removeClient] at hin
          exact h.1 (List.mem_of_mem_erase hin)

theorem foldl_accept_counter (s : WebSocketServer) (n : Nat) :
    ((List.replicate n ServerOp.accept).foldl serverStep s).token_counter
      = s.token_counter + n ∧
    (ServerInv s →
      ((List.replicate n ServerOp.accept).foldl serverStep s).clients.length
        = s.clients.length + n ∧
      ServerInv ((List.replicate n ServerOp.accept).foldl serverStep s)) := by
  induction n generalizing s with
  | zero => exact ⟨rfl, fun h => ⟨rfl, h⟩⟩
  | succ n ih =>
      rw [List.replicate_succ]
      refine ⟨?_, fun h => ⟨?_, ?_⟩⟩
      · have := (ih (acceptClient s)).1
        simp only [List.foldl_cons, serverStep] at *
        rw [this]
        simp [acceptClient]
        omega
      · have h2 := (ih (acceptClient s)).2 (serverInv_accept h).1
        simp only [List.foldl_cons, serverStep] at *
        rw [h2.1, (serverInv_accept h).2]
        omega
      · have h2 := (ih (acceptClient s)).2 (serverInv_accept h).1
        simp only [List.foldl_cons, serverStep] at *
        exact h2.2

/-! ## The claims -/

/-- C1: Codec round-trip — for every payload of length 0, 1, 125, 126,
65535, 65536, or 70000 and for each of the Text (1) and Binary (2)
opcodes, serializing the frame with `write` and then decoding the
produced bytes with `read` yields the original payload and the original
opcode unchanged. -/
theorem c1_codec_roundtrip (payload : List Nat) (opcode : Nat) (uninit : Nat → Nat)
    (hlen : payload.length = 0 ∨ payload.length = 1 ∨ payload.length = 125 ∨
      payload.length = 126 ∨ payload.length = 65535 ∨ payload.length = 65536 ∨
      payload.length = 70000)
    (hop : opcode = 1 ∨ opcode = 2) :
    ∃ f rest, WebSocketFrame.read uninit ((mkFrame payload opcode).write) = .ok (f, rest)
      ∧ f.payload = payload ∧ f.header.opcode = opcode :=
  ⟨mkFrame payload opcode, [],
    read_write_mkFrame payload opcode uninit hop (by omega), rfl, rfl⟩

theorem c1_codec_roundtrip_witness :
    ∃ f rest, WebSocketFrame.read (fun _ => 0) ((mkFrame [42] 1).write) = .ok (f, rest)
      ∧ f.payload = [42] ∧ f.header.opcode = 1 :=
  c1_codec_roundtrip [42] 1 (fun _ => 0) (by simp) (Or.inl rfl)

/-- C2: claimed unknown-opcode rejection.  The code has no opcode
validation at all: `parse_header` stores the raw low 4 bits and `read`
returns a frame.  At the failing input `[0x83, 0x00]` (FIN set, opcode
3, unmasked, length 0) decoding succeeds with opcode 3 instead of
failing with a protocol error. -/
theorem c2_unknown_opcode_accepted :
    WebSocketFrame.read (fun _ => 0) [0x83, 0x00]
      = .ok (⟨⟨true, false, false, false, false, 3, 0⟩, none, []⟩, []) := rfl

/-- C3: claimed truncated-input detection.  `read_payload` forces the
declared length with `unsafe set_len` and issues one unchecked `read`:
on the failing input `[0x81, 0x05, 0x61, 0x62]` (header declares a
5-byte payload, stream supplies 2 bytes) decoding succeeds and the
returned payload's last 3 bytes come from uninitialized memory (the
`uninit` function, here `fun i => 200 + i`), instead of failing with a
truncated-input error. -/
theorem c3_truncation_undetected :
    WebSocketFrame.read (fun i => 200 + i) [0x81, 0x05, 0x61, 0x62]
      = .ok (⟨⟨true, false, false, false, false, 1, 5⟩, none,
          [0x61, 0x62, 200, 201, 202]⟩, []) := rfl

/-- C4: Encode length-tier selection — payload length 125 gives a 7-bit
field of 125 and no extension bytes; length 126 gives the sentinel 126
plus the 2-byte big-endian extension `[0, 126]`; length 65536 gives the
sentinel 127 plus the 8-byte big-endian extension of 65536. -/
theorem c4_length_tier_selection (payload : List Nat) (op : Nat) (hop : op = 1 ∨ op = 2) :
    (payload.length = 125 →
      (mkFrame payload op).write = (128 + op) :: 125 :: payload)
  ∧ (payload.length = 126 →
      (mkFrame payload op).write = (128 + op) :: 126 :: 0 :: 126 :: payload)
  ∧ (payload.length = 65536 →
      (mkFrame payload op).write
        = (128 + op) :: 127 :: 0 :: 0 :: 0 :: 0 :: 0 :: 1 :: 0 :: 0 :: payload) := by
  refine ⟨?_, ?_, ?_⟩ <;> intro h <;> rw [write_mkFrame payload op hop, h]
  · rw [determine_len_of_lt (by omega)]
    norm_num [FRAME_LEN_U16, FRAME_LEN_U64]
  · rw [determine_len_mid (by omega) (by omega)]
    norm_num [FRAME_LEN_U16, FRAME_LEN_U64, u16BE]
  · rw [determine_len_high (by omega)]
    norm_num [FRAME_LEN_U16, FRAME_LEN_U64, u64BE]

theorem c4_length_tier_selection_witness :
    (mkFrame (List.replicate 125 9) 1).write = 129 :: 125 :: List.replicate 125 9
  ∧ (mkFrame (List.replicate 126 9) 2).write = 130 :: 126 :: 0 :: 126 :: List.replicate 126 9
  ∧ (mkFrame (List.replicate 65536 9) 1).write
      = 129 :: 127 :: 0 :: 0 :: 0 :: 0 :: 0 :: 1 :: 0 :: 0 :: List.replicate 65536 9 :=
  ⟨(c4_length_tier_selection _ 1 (Or.inl rfl)).1 (by rw [List.length_replicate]),
   (c4_length_tier_selection _ 2 (Or.inr rfl)).2.1 (by rw [List.length_replicate]),
   (c4_length_tier_selection _ 1 (Or.inl rfl)).2.2 (by rw [List.length_replicate])⟩

/-- C5: Decode length resolution — a 7-bit field strictly below 126 is
the literal payload length; 126 means the next 2 bytes, big-endian; 127
means the next 8 bytes, big-endian. -/
theorem c5_length_resolution :
    (∀ (f : Nat) (input : List Nat), f < 126 → read_length f input = .ok (f, input))
  ∧ (∀ (n : Nat) (rest : List Nat), n < 2 ^ 16 →
      read_length 126 (u16BE n ++ rest) = .ok (n, rest))
  ∧ (∀ (n : Nat) (rest : List Nat), n < 2 ^ 64 →
      read_length 127 (u64BE n ++ rest) = .ok (n, rest)) := by
  refine ⟨?_, ?_, ?_⟩
  · intro f input h
    have e1 : (f == FRAME_LEN_U64) = false := by
      simp [FRAME_LEN_U64]; omega
    have e2 : (f == FRAME_LEN_U16) = false := by
      simp [FRAME_LEN_U16]; omega
    simp [read_length, e1, e2]
  · intro n rest h
    rw [read_length, show ((126 : Nat) == FRAME_LEN_U64) = false from rfl,
        show ((126 : Nat) == FRAME_LEN_U16) = true from rfl]
    simpa using read_u16_u16BE n rest h
  · intro n rest h
    rw [read_length, show ((127 : Nat) == FRAME_LEN_U64) = true from rfl]
    simpa using read_u64_u64BE n rest h

theorem c5_length_resolution_witness :
    read_length 5 [9, 9] = .ok (5, [9, 9])
  ∧ read_length 126 (u16BE 300 ++ [7]) = .ok (300, [7])
  ∧ read_length 127 (u64BE 70000 ++ [7]) = .ok (70000, [7]) :=
  ⟨c5_length_resolution.1 5 [9, 9] (by omega),
   c5_length_resolution.2.1 300 [7] (by omega),
   c5_length_resolution.2.2 70000 [7] (by omega)⟩

/-- C6: Masking involution and unmasking on decode — applying the XOR
mask twice is the identity on any byte sequence, and decoding a frame
whose mask bit is set (here: FIN+Text header `0x81`, masked length
byte `0xFE` = mask bit + sentinel 126) applies the mask exactly once,
returning the unmasked payload. -/
theorem c6_masking (payload : List Nat) (m : MaskKey) (uninit : Nat → Nat)
    (hlen : payload.length < 2 ^ 16) :
    apply_mask m (apply_mask m payload) = payload
  ∧ WebSocketFrame.read uninit
      (0x81 :: 0xFE :: (u16BE payload.length ++ (maskBytes m ++ apply_mask m payload)))
    = .ok (⟨⟨true, false, false, false, true, 1, 126⟩, some m, payload⟩, []) := by
  obtain ⟨a, b, c, d⟩ := m
  refine ⟨applyMaskFrom_applyMaskFrom _ 0 payload, ?_⟩
  simp only [WebSocketFrame.read, bind, Except.bind, read_u16]
  rw [show parse_header (0x81 * 256 + 0xFE)
        = ⟨true, false, false, false, true, 1, 126⟩ from by decide]
  rw [show (⟨true, false, false, false, true, 1, 126⟩ :
        WebSocketFrameHeader).payload_length = 126 from rfl]
  rw [read_length, show ((126 : Nat) == FRAME_LEN_U64) = false from rfl,
      show ((126 : Nat) == FRAME_LEN_U16) = true from rfl]
  simp only [Bool.false_eq_true, if_false, if_true,
    read_u16_u16BE payload.length _ hlen]
  rw [read_mask_exact ⟨a, b, c, d⟩]
  simp only [bind, Except.bind, pure, Except.pure]
  rw [← apply_mask_length ⟨a, b, c, d⟩ payload, read_payload_exact]
  simp only [bind, Except.bind, pure, Except.pure]
  rw [show apply_mask ⟨a, b, c, d⟩ (apply_mask ⟨a, b, c, d⟩ payload) = payload
        from applyMaskFrom_applyMaskFrom _ 0 payload]

theorem c6_masking_witness :
    apply_mask ⟨10, 20, 30, 40⟩ (apply_mask ⟨10, 20, 30, 40⟩ [1, 2, 3]) = [1, 2, 3]
  ∧ WebSocketFrame.read (fun _ => 0)
      (0x81 :: 0xFE :: (u16BE ([1, 2, 3] : List Nat).length ++
        (maskBytes ⟨10, 20, 30, 40⟩ ++ apply_mask ⟨10, 20, 30, 40⟩ [1, 2, 3])))
    = .ok (⟨⟨true, false, false, false, true, 1, 126⟩, some ⟨10, 20, 30, 40⟩, [1, 2, 3]⟩, []) :=
  c6_masking [1, 2, 3] ⟨10, 20, 30, 40⟩ (fun _ => 0) (by simp)

/-- C7: Handshake key derivation — `gen_key` is the standard base64
encoding of the 20-byte SHA-1 digest of the key concatenated with the
fixed GUID, and on the canonical protocol vector
`"dGhlIHNhbXBsZSBub25jZQ=="` it yields `"s3pPLMBiTxaQ9kYGzzhZRbK+xOo="`. -/
theorem c7_gen_key :
    (∀ key : String,
      gen_key key = toBase64 (sha1Digest (strBytes key ++ strBytes magicGUID))
      ∧ (sha1Digest (strBytes key ++ strBytes magicGUID)).length = 20)
  ∧ gen_key "dGhlIHNhbXBsZSBub25jZQ==" = "s3pPLMBiTxaQ9kYGzzhZRbK+xOo=" := by
  constructor
  · intro key
    constructor
    · simp [gen_key, Sha1.new, Sha1.update, Sha1.output]
    · simp [sha1Digest, u32BE]
  · set_option maxRecDepth 100000 in decide

theorem c7_gen_key_witness :
    gen_key "" = toBase64 (sha1Digest (strBytes "" ++ strBytes magicGUID))
  ∧ (sha1Digest (strBytes "" ++ strBytes magicGUID)).length = 20 :=
  c7_gen_key.1 ""

/-- C8: Token lifecycle — `accept` succeeding `n` times from the
initial state yields a registry of exactly `n` pairwise-distinct
tokens, none the listening token `Token(0)`; tokens come from the
incrementing counter, which starts above 0; and a token present in the
registry, once removed, never reappears however the trace continues. -/
theorem c8_token_lifecycle (n : Nat) (pre mid : List ServerOp) (t : Nat)
    (ht : t ∈ (runServer pre).clients) :
    (acceptN n).clients.length = n
  ∧ (acceptN n).clients.Nodup
  ∧ SERVER_TOKEN ∉ (acceptN n).clients
  ∧ 0 < initialServer.token_counter
  ∧ (∀ s : WebSocketServer, (acceptClient s).token_counter = s.token_counter + 1)
  ∧ t ∉ (runServer (pre ++ ServerOp.remove t :: mid)).clients := by
  have hn := (foldl_accept_counter initialServer n).2 serverInv_initial
  have hinv := serverInv_runServer pre
  refine ⟨?_, hn.2.2.1, ?_, by decide, fun s => rfl, ?_⟩
  · have := hn.1
    simpa [acceptN, runServer, initialServer] using this
  · intro hmem
    have := hn.2.2.2 _ (by simpa [acceptN, runServer] using hmem)
    simp [SERVER_TOKEN] at this
  · have hb : t ≤ (runServer pre).token_counter := (hinv.2.2 t ht).2
    have hgone : t ∉ (removeClient (runServer pre) t).clients := by
      simp only [removeClient]
      exact hinv.2.1.not_mem_erase
    have : runServer (pre ++ ServerOp.remove t :: mid)
        = mid.foldl serverStep (serverStep (runServer pre) (ServerOp.remove t)) := by
      simp [runServer, List.foldl_append]
    rw [this]
    exact (absent_token_stays_absent ⟨hgone, hb⟩ mid).1

theorem c8_token_lifecycle_witness :
    (acceptN 3).clients.length = 3
  ∧ (acceptN 3).clients.Nodup
  ∧ SERVER_TOKEN ∉ (acceptN 3).clients
  ∧ 0 < initialServer.token_counter
  ∧ (∀ s : WebSocketServer, (acceptClient s).token_counter = s.token_counter + 1)
  ∧ 2 ∉ (runServer ([ServerOp.accept] ++ ServerOp.remove 2 ::
      [ServerOp.accept, ServerOp.accept])).clients :=
  c8_token_lifecycle 3 [ServerOp.accept] [ServerOp.accept, ServerOp.accept] 2 (by decide)

/-- C9: Re-arm on every dispatch — for a client token present in the
registry, `ready` runs the connection's read logic and then registers
that socket for read-readiness with edge-triggered one-shot options
before returning; this is the handler's only non-panicking exit path
for a client token, so it holds on every exit. -/
theorem c9_rearm_on_dispatch (s : WebSocketServer) (token : Nat)
    (hne : token ≠ SERVER_TOKEN) (hmem : token ∈ s.clients) :
    ready s token
      = some (s, [.clientRead token, .registerRead token ⟨true, true⟩]) := by
  have : (token == SERVER_TOKEN) = false := by
    simpa using hne
  simp [ready, this, hmem]

theorem c9_rearm_on_dispatch_witness :
    ready ⟨[2], 2⟩ 2
      = some (⟨[2], 2⟩, [.clientRead 2, .registerRead 2 ⟨true, true⟩]) :=
  c9_rearm_on_dispatch ⟨[2], 2⟩ 2 (by decide) (by decide)

/-- C10: Implicit 16-bit tier boundary — `determine_len` compares with
a strict `< 65535`, so lengths 126..=65534 use the 126 sentinel with a
2-byte extension while length exactly 65535 already uses the 127
sentinel with an 8-byte extension, although 65535 fits in 16 bits. -/
theorem c10_tier_boundary (len : Nat) (payload : List Nat) :
    (126 ≤ len → len ≤ 65534 → WebSocketFrameHeader.determine_len len = FRAME_LEN_U16)
  ∧ WebSocketFrameHeader.determine_len 65535 = FRAME_LEN_U64
  ∧ (126 ≤ payload.length → payload.length ≤ 65534 →
      (mkFrame payload 2).write = 130 :: 126 :: (u16BE payload.length ++ payload))
  ∧ (payload.length = 65535 →
      (mkFrame payload 2).write
        = 130 :: 127 :: 0 :: 0 :: 0 :: 0 :: 0 :: 0 :: 255 :: 255 :: payload) := by
  refine ⟨fun h1 h2 => determine_len_mid h1 (by omega),
    determine_len_high (by omega), fun h1 h2 => ?_, fun h => ?_⟩
  · rw [write_mkFrame payload 2 (Or.inr rfl), determine_len_mid h1 (by omega)]
    rw [show ((126 : Nat) == FRAME_LEN_U16) = true from rfl]
    simp only [if_true, Nat.mod_eq_of_lt (show payload.length < 2 ^ 16 by omega)]
  · rw [write_mkFrame payload 2 (Or.inr rfl), h, determine_len_high (by omega)]
    norm_num [FRAME_LEN_U16, FRAME_LEN_U64, u64BE]

theorem c10_tier_boundary_witness :
    WebSocketFrameHeader.determine_len 200 = FRAME_LEN_U16
  ∧ WebSocketFrameHeader.determine_len 65535 = FRAME_LEN_U64
  ∧ (mkFrame (List.replicate 200 9) 2).write
      = 130 :: 126 :: (u16BE (List.replicate 200 9).length ++ List.replicate 200 9)
  ∧ (mkFrame (List.replicate 65535 9) 2).write
      = 130 :: 127 :: 0 :: 0 :: 0 :: 0 :: 0 :: 0 :: 255 :: 255 :: List.replicate 65535 9 :=
  ⟨(c10_tier_boundary 200 []).1 (by omega) (by omega),
   (c10_tier_boundary 200 []).2.1,
   (c10_tier_boundary 200 (List.replicate 200 9)).2.2.1
     (by rw [List.length_replicate]; omega) (by rw [List.length_replicate]; omega),
   (c10_tier_boundary 200 (List.replicate 65535 9)).2.2.2 (by rw [List.length_replicate])⟩

end RustChat
